import Mathlib

/-!
Shallow embedding of the in-memory user registry HTTP server
(file embedded in go-snake-2d/refactor-guide.md: `userCache`, `cacheMutex`,
`nextID`, `handleCreateUser`, `handleGetUser`, `handleDeleteUser`).

Modelling decisions, each noted at the definition it concerns:
- the Go `map[int]User` is modelled as an association list with the usual
  map operations (lookup, insert-or-replace, delete);
- Go `int` is modelled as `Int`; the `nextID++` counter is treated as
  unbounded (2^63 successful creates are unreachable in one process
  lifetime), while `strconv.Atoi`'s explicit 64-bit range check, which is
  reachable from a single request, is modelled faithfully;
- the mutex serialises every handler body, so a handler is a function from
  pre-state to (response, post-state) and a run of the server is a fold of
  handler steps over a request list (one step per lock acquisition, in
  lock-acquisition order);
- response bodies produced by `http.Error` end in a newline (it uses
  `fmt.Fprintln`); where the Go body embeds a library-generated
  `err.Error()` text (JSON decode errors, `strconv` errors) only the
  handler-chosen prefix is modelled, and no claim depends on those bodies.
-/

/-- Embedding of `type User struct`: a record with the single field `name`. -/
structure User where
  name : String
  deriving DecidableEq, Repr

/-- Wire response: HTTP status code plus body text. -/
structure Response where
  status : Nat
  body : String
  deriving DecidableEq, Repr

/-- Registry state: the `userCache` map (as an association list keyed by the
user id) together with the `nextID` allocator counter. -/
structure ServerState where
  userCache : List (Int × User)
  nextID : Int
  deriving DecidableEq, Repr

/-- Process-start state: `userCache = make(map[int]User)` (empty) and
`nextID = 1`. -/
def initialState : ServerState :=
  ServerState.mk [] 1

/-- Embedding of Go map indexing `user, ok := userCache[id]`: the value at
the key, if present. -/
def mapLookup (m : List (Int × User)) (k : Int) : Option User :=
  match m with
  | [] => none
  | p :: rest => if p.1 = k then some p.2 else mapLookup rest k

/-- Embedding of Go map assignment `userCache[userID] = user`:
insert-or-replace at the key. -/
def mapInsert (m : List (Int × User)) (k : Int) (v : User) : List (Int × User) :=
  match m with
  | [] => [(k, v)]
  | p :: rest => if p.1 = k then (k, v) :: rest else p :: mapInsert rest k v

/-- Embedding of Go `delete(userCache, id)`: remove every binding of the
key; removing an absent key leaves the map unchanged. -/
def mapDelete (m : List (Int × User)) (k : Int) : List (Int × User) :=
  match m with
  | [] => []
  | p :: rest => if p.1 = k then mapDelete rest k else p :: mapDelete rest k

/-- Decimal digit test used by the `strconv.Atoi` embedding. -/
def decDigit (c : Char) : Bool :=
  decide ('0' ≤ c) && decide (c ≤ '9')

/-- Value of a list of decimal digit characters. -/
def digitsVal (l : List Char) : Nat :=
  l.foldl (fun acc c => acc * 10 + (c.toNat - '0'.toNat)) 0

/-- Embedding of `strconv.Atoi` (= `ParseInt(s, 10, 0)` with 64-bit `int`):
an optional single sign, then at least one decimal digit and nothing else;
values outside [-2^63, 2^63-1] are a range error. `none` stands for any
non-nil error (syntax or range). -/
def atoi (s : String) : Option Int :=
  match s.data with
  | [] => none
  | c :: cs =>
    let signed : Bool × List Char :=
      if c = '-' then (true, cs)
      else if c = '+' then (false, cs)
      else (false, c :: cs)
    if signed.2.isEmpty then none
    else if signed.2.all decDigit then
      let n : Nat := digitsVal signed.2
      if signed.1 then
        if n ≤ 2 ^ 63 then some (-(n : Int)) else none
      else
        if n < 2 ^ 63 then some (n : Int) else none
    else none

/-- Hexadecimal digit character, lowercase, as used by `encoding/json`. -/
def hexChar (n : Nat) : Char :=
  if n < 10 then Char.ofNat ('0'.toNat + n) else Char.ofNat ('a'.toNat + (n - 10))

/-- Escaping of one character of a JSON string by `encoding/json` with the
default HTML escaping: quote, backslash, newline/return/tab, other control
characters, the HTML-sensitive characters and U+2028/U+2029. -/
def jsonEscapeChar (c : Char) : String :=
  if c = '"' then "\\\""
  else if c = '\\' then "\\\\"
  else if c = '\n' then "\\n"
  else if c = '\r' then "\\r"
  else if c = '\t' then "\\t"
  else if c = '<' then "\\u003c"
  else if c = '>' then "\\u003e"
  else if c = '&' then "\\u0026"
  else if c.toNat < 32 then
    String.mk ['\\', 'u', '0', '0', hexChar (c.toNat / 16), hexChar (c.toNat % 16)]
  else if c.toNat = 0x2028 then "\\u2028"
  else if c.toNat = 0x2029 then "\\u2029"
  else String.mk [c]

/-- Escaping of a whole JSON string body. -/
def jsonEscape (s : String) : String :=
  String.join (s.data.map jsonEscapeChar)

/-- Embedding of `json.Marshal(user)` for `User` (which cannot fail, so the
handler's 500 branch is dead): the object with the single `name` key from
the `json:"name"` tag. -/
def marshalUser (u : User) : String :=
  "\x7b\"name\":\"" ++ jsonEscape u.name ++ "\"\x7d"

/-- Body written by the create handler: `fmt.Fprintf(w, "User successfully
created with ID: %d", userID)`. -/
def createMsg (id : Int) : String :=
  "User successfully created with ID: " ++ toString id

/-- Body of the get handler's 404: `fmt.Sprintf("User with ID %d not
found", id)` through `http.Error`, which appends a newline. -/
def notFoundMsg (id : Int) : String :=
  "User with ID " ++ toString id ++ " not found\n"

/-- Embedding of `handleCreateUser`. The JSON decode of the request body
happens before any shared state is touched, so its outcome is the
parameter: `none` is a decode error, `some user` the decoded `User` (a body
without a `name` key decodes to the empty name). On the success path the
critical section reads `userID := nextID`, stores the user, and increments
`nextID`. -/
def handleCreateUser (body : Option User) (s : ServerState) : Response × ServerState :=
  match body with
  | none => (Response.mk 400 "Invalid request body: ", s)
  | some user =>
    if user.name = "" then
      (Response.mk 400 "Name field is required\n", s)
    else
      let userID := s.nextID
      (Response.mk 201 (createMsg userID),
        ServerState.mk (mapInsert s.userCache userID user) (s.nextID + 1))

/-- Embedding of `handleGetUser`: parse the id path segment with
`strconv.Atoi` (400 on error), look the id up under the read lock (404 when
absent), otherwise 200 with the marshalled user. -/
def handleGetUser (idStr : String) (s : ServerState) : Response × ServerState :=
  match atoi idStr with
  | none => (Response.mk 400 "Invalid user ID format: ", s)
  | some id =>
    match mapLookup s.userCache id with
    | none => (Response.mk 404 (notFoundMsg id), s)
    | some user => (Response.mk 200 (marshalUser user), s)

/-- Embedding of `handleDeleteUser`: parse the id path segment with
`strconv.Atoi` (400 on error), then delete unconditionally under the write
lock and answer 204 with an empty body. -/
def handleDeleteUser (idStr : String) (s : ServerState) : Response × ServerState :=
  match atoi idStr with
  | none => (Response.mk 400 "Invalid user ID format: ", s)
  | some id => (Response.mk 204 "", ServerState.mk (mapDelete s.userCache id) s.nextID)

/-- Requests reaching the three registry routes of the mux. For a create,
the JSON decode outcome of the body stands in for the raw body text; for
get and delete, the argument is the raw id path segment. -/
inductive Request where
  | create (body : Option User)
  | get (idStr : String)
  | delete (idStr : String)
  deriving DecidableEq, Repr

/-- One handler invocation (one critical section) on the current state. -/
def step (s : ServerState) (r : Request) : Response × ServerState :=
  match r with
  | Request.create body => handleCreateUser body s
  | Request.get idStr => handleGetUser idStr s
  | Request.delete idStr => handleDeleteUser idStr s

/-- State after serving a list of requests in lock-acquisition order. -/
def runState (s : ServerState) : List Request → ServerState
  | [] => s
  | r :: rs => runState (step s r).2 rs

/-- Responses produced by a list of requests served in lock-acquisition
order. -/
def responses (s : ServerState) : List Request → List Response
  | [] => []
  | r :: rs => (step s r).1 :: responses (step s r).2 rs

/-- State just before the i-th request of a run (0-indexed). -/
def stateAt (s : ServerState) (reqs : List Request) (i : Nat) : ServerState :=
  runState s (reqs.take i)

/-- Identifier assigned by a request at a given pre-state: the create
handler's `userID := nextID` line when the request is a create that passes
decoding and the non-empty-name validation, and nothing otherwise. -/
def assignedId (s : ServerState) (r : Request) : Option Int :=
  match r with
  | Request.create none => none
  | Request.create (some user) => if user.name = "" then none else some s.nextID
  | Request.get _ => none
  | Request.delete _ => none

/-- Request that deletes exactly the identifier k: a delete route whose id
segment parses to k. -/
def deletesId (r : Request) (k : Int) : Prop :=
  match r with
  | Request.delete idStr => atoi idStr = some k
  | _ => False

/-- Registry invariant: the allocator counter is at least its initial value,
and every key in the table is positive and below the counter (so it was
handed out by the allocator). -/
def RegistryInv (s : ServerState) : Prop :=
  1 ≤ s.nextID ∧ ∀ p ∈ s.userCache, 0 < p.1 ∧ p.1 < s.nextID

/-- Expected wire responses of a run of n consecutive successful creates
whose first assigned identifier is start: 201 with the creation message for
start, start + 1, and so on, one identifier per call. -/
def seqCreateResponses : Nat → Int → List Response
  | 0, _ => []
  | n + 1, start => Response.mk 201 (createMsg start) :: seqCreateResponses n (start + 1)

/-! Helper lemmas about the map operations. -/

theorem mapLookup_mapInsert (m : List (Int × User)) (k k' : Int) (v : User) :
    mapLookup (mapInsert m k v) k' = if k = k' then some v else mapLookup m k' := by
  induction m with
  | nil => simp [mapInsert, mapLookup]
  | cons p rest ih =>
    by_cases h1 : p.1 = k
    · subst h1
      by_cases h2 : p.1 = k' <;> simp [mapInsert, mapLookup, h2]
    · by_cases h2 : k = k'
      · subst h2
        simp [mapInsert, mapLookup, h1, ih]
      · simp [mapInsert, mapLookup, h1, h2, ih]

theorem mapLookup_mapDelete (m : List (Int × User)) (k k' : Int) :
    mapLookup (mapDelete m k) k' = if k' = k then none else mapLookup m k' := by
  induction m with
  | nil => simp [mapDelete, mapLookup]
  | cons p rest ih =>
    by_cases h1 : p.1 = k
    · subst h1
      by_cases h2 : k' = p.1
      · subst h2
        simp [mapDelete, mapLookup, ih]
      · have h3 : ¬ p.1 = k' := fun hc => h2 hc.symm
        simp [mapDelete, mapLookup, ih, h2, h3]
    · by_cases h2 : p.1 = k'
      · have h3 : ¬ k' = k := fun hc => h1 (h2.trans hc)
        simp [mapDelete, mapLookup, h1, h2, h3]
      · simp [mapDelete, mapLookup, h1, h2, ih]

theorem mapDelete_mapDelete (m : List (Int × User)) (k : Int) :
    mapDelete (mapDelete m k) k = mapDelete m k := by
  induction m with
  | nil => simp [mapDelete]
  | cons p rest ih =>
    by_cases h1 : p.1 = k <;> simp [mapDelete, h1, ih]

theorem mapDelete_of_lookup_none (m : List (Int × User)) (k : Int)
    (h : mapLookup m k = none) : mapDelete m k = m := by
  induction m with
  | nil => rfl
  | cons p rest ih =>
    unfold mapLookup at h
    by_cases h1 : p.1 = k
    · simp [h1] at h
    · simp [h1] at h
      simp [mapDelete, h1, ih h]

theorem mem_mapInsert (m : List (Int × User)) (k : Int) (v : User) (p : Int × User)
    (h : p ∈ mapInsert m k v) : p = (k, v) ∨ p ∈ m := by
  induction m with
  | nil =>
    simp [mapInsert] at h
    exact Or.inl h
  | cons q rest ih =>
    by_cases h1 : q.1 = k
    · simp [mapInsert, h1] at h
      rcases h with h | h
      · left; simp [h]
      · right; simp [h]
    · simp [mapInsert, h1] at h
      rcases h with h | h
      · right; simp [h]
      · rcases ih h with h2 | h2
        · left; exact h2
        · right; simp [h2]

theorem mem_mapDelete (m : List (Int × User)) (k : Int) (p : Int × User)
    (h : p ∈ mapDelete m k) : p ∈ m := by
  induction m with
  | nil => simp [mapDelete] at h
  | cons q rest ih =>
    by_cases h1 : q.1 = k
    · simp [mapDelete, h1] at h
      simp [ih h]
    · simp [mapDelete, h1] at h
      rcases h with h | h
      · simp [h]
      · simp [ih h]

theorem mapLookup_none_of_keys_pos (m : List (Int × User)) (k : Int)
    (hpos : ∀ p ∈ m, 0 < p.1) (hk : k ≤ 0) : mapLookup m k = none := by
  induction m with
  | nil => rfl
  | cons p rest ih =>
    have hp : 0 < p.1 := hpos p (by simp)
    have hne : p.1 ≠ k := by omega
    simp [mapLookup, hne]
    exact ih (fun q hq => hpos q (by simp [hq]))

/-! Helper lemmas about single steps and runs. -/

theorem handleGetUser_state (idStr : String) (s : ServerState) :
    (handleGetUser idStr s).2 = s := by
  cases h : atoi idStr with
  | none => simp [handleGetUser, h]
  | some id =>
    cases h2 : mapLookup s.userCache id <;> simp [handleGetUser, h, h2]

theorem step_nextID_le (s : ServerState) (r : Request) :
    s.nextID ≤ (step s r).2.nextID := by
  cases r with
  | create body =>
    cases body with
    | none => simp [step, handleCreateUser]
    | some u =>
      by_cases h : u.name = ""
      · simp [step, handleCreateUser, h]
      · have h2 : (step s (Request.create (some u))).2.nextID = s.nextID + 1 := by
          simp [step, handleCreateUser, h]
        rw [h2]
        omega
  | get idStr => simp [step, handleGetUser_state]
  | delete idStr =>
    cases h : atoi idStr <;> simp [step, handleDeleteUser, h]

theorem runState_nextID_le (s : ServerState) (l : List Request) :
    s.nextID ≤ (runState s l).nextID := by
  induction l generalizing s with
  | nil => exact le_refl _
  | cons r rs ih => exact le_trans (step_nextID_le s r) (ih (step s r).2)

theorem runState_append (s : ServerState) (l1 l2 : List Request) :
    runState s (l1 ++ l2) = runState (runState s l1) l2 := by
  induction l1 generalizing s with
  | nil => rfl
  | cons r rs ih => simpa [runState] using ih (step s r).2

theorem assignedId_some (s : ServerState) (r : Request) (a : Int)
    (h : assignedId s r = some a) :
    a = s.nextID ∧ (step s r).1 = Response.mk 201 (createMsg a) ∧
      (step s r).2.nextID = a + 1 := by
  cases r with
  | create body =>
    cases body with
    | none => simp [assignedId] at h
    | some u =>
      by_cases hn : u.name = ""
      · simp [assignedId, hn] at h
      · simp [assignedId, hn] at h
        subst h
        simp [step, handleCreateUser, hn]
  | get idStr => simp [assignedId] at h
  | delete idStr => simp [assignedId] at h

theorem stateAt_succ (s : ServerState) (reqs : List Request) (i : Nat)
    (hi : i < reqs.length) :
    stateAt s reqs (i + 1) = (step (stateAt s reqs i) reqs[i]).2 := by
  unfold stateAt
  rw [List.take_succ, runState_append, List.getElem?_eq_getElem hi]
  rfl

theorem stateAt_nextID_mono (s : ServerState) (reqs : List Request) (i j : Nat)
    (hij : i ≤ j) :
    (stateAt s reqs i).nextID ≤ (stateAt s reqs j).nextID := by
  have h2 : (reqs.take j).take i = reqs.take i := by
    rw [List.take_take, min_eq_left hij]
  unfold stateAt
  calc (runState s (reqs.take i)).nextID
      = (runState s ((reqs.take j).take i)).nextID := by rw [h2]
    _ ≤ (runState (runState s ((reqs.take j).take i)) ((reqs.take j).drop i)).nextID :=
        runState_nextID_le _ _
    _ = (runState s (reqs.take j)).nextID := by
        rw [← runState_append, List.take_append_drop]

/-! Claim theorems. -/

/-- Claim C5: invalid input never perturbs registry state: a create request
whose body fails to deserialize, or deserializes to an empty name, is
answered 400 with the whole state (table and nextID) exactly as before. -/
theorem c5_invalid_input_preserves_state :
    ∀ (s : ServerState),
      handleCreateUser none s = (Response.mk 400 "Invalid request body: ", s)
      ∧ ∀ (u : User), u.name = "" →
          handleCreateUser (some u) s = (Response.mk 400 "Name field is required\n", s) := by
  intro s
  exact ⟨rfl, fun u hu => by simp [handleCreateUser, hu]⟩

/-- Witness for C5 at the initial state and the empty-name record. -/
theorem c5_witness :
    handleCreateUser none initialState
        = (Response.mk 400 "Invalid request body: ", initialState)
    ∧ handleCreateUser (some (User.mk "")) initialState
        = (Response.mk 400 "Name field is required\n", initialState) :=
  ⟨(c5_invalid_input_preserves_state initialState).1,
   (c5_invalid_input_preserves_state initialState).2 (User.mk "") rfl⟩

/-- Claim C6: the GET wire mapping is exhaustive: unparseable id gives 400
(and no state change), parseable id absent from the table gives 404,
present id gives 200 with the marshalled record. -/
theorem c6_get_wire_mapping :
    ∀ (idStr : String) (s : ServerState),
      (atoi idStr = none →
        (handleGetUser idStr s).1.status = 400 ∧ (handleGetUser idStr s).2 = s)
      ∧ (∀ k, atoi idStr = some k → mapLookup s.userCache k = none →
          (handleGetUser idStr s).1 = Response.mk 404 (notFoundMsg k))
      ∧ (∀ k u, atoi idStr = some k → mapLookup s.userCache k = some u →
          (handleGetUser idStr s).1 = Response.mk 200 (marshalUser u)) := by
  intro idStr s
  refine ⟨fun h => ?_, fun k h hl => ?_, fun k u h hl => ?_⟩
  · simp [handleGetUser, h]
  · simp [handleGetUser, h, hl]
  · simp [handleGetUser, h, hl]

/-- Witness for C6: one instance of each of the three GET branches. -/
theorem c6_witness :
    ((handleGetUser "abc" initialState).1.status = 400
      ∧ (handleGetUser "abc" initialState).2 = initialState)
    ∧ (handleGetUser "7" initialState).1 = Response.mk 404 (notFoundMsg 7)
    ∧ (handleGetUser "1" (handleCreateUser (some (User.mk "Ada")) initialState).2).1
        = Response.mk 200 (marshalUser (User.mk "Ada")) :=
  ⟨(c6_get_wire_mapping "abc" initialState).1 (by decide),
   (c6_get_wire_mapping "7" initialState).2.1 7 (by decide) (by decide),
   (c6_get_wire_mapping "1" (handleCreateUser (some (User.mk "Ada")) initialState).2).2.2
     1 (User.mk "Ada") (by decide) (by decide)⟩

/-- Claim C7, counterexample: the first successful create on a fresh
registry answers 201, but its body is the sentence
"User successfully created with ID: 1", not the bare identifier "1", so
"the response body is the assigned identifier" is false as stated. -/
theorem c7_counterexample :
    (handleCreateUser (some (User.mk "Ada")) initialState).1.status = 201
    ∧ (handleCreateUser (some (User.mk "Ada")) initialState).1.body ≠ "1"
    ∧ (handleCreateUser (some (User.mk "Ada")) initialState).1.body
        = "User successfully created with ID: 1" := by
  refine ⟨rfl, by decide, rfl⟩

/-- Claim C7 as amended: every POST with a parseable body and non-empty
name is answered 201, with the body the creation message reporting the
assigned identifier (the pre-increment nextID); on a fresh registry the
reported identifier is 1. -/
theorem c7_created_response :
    (∀ (s : ServerState) (u : User), u.name ≠ "" →
      (handleCreateUser (some u) s).1 = Response.mk 201 (createMsg s.nextID))
    ∧ (∀ (u : User), u.name ≠ "" →
      (handleCreateUser (some u) initialState).1 = Response.mk 201 (createMsg 1)) := by
  constructor
  · intro s u hu
    simp [handleCreateUser, hu]
  · intro u hu
    simp [handleCreateUser, hu, initialState]

/-- Witness for the amended C7 at the record named Ada. -/
theorem c7_witness :
    (handleCreateUser (some (User.mk "Ada")) initialState).1
        = Response.mk 201 (createMsg initialState.nextID)
    ∧ (handleCreateUser (some (User.mk "Bob")) initialState).1
        = Response.mk 201 (createMsg 1) :=
  ⟨c7_created_response.1 initialState (User.mk "Ada") (by decide),
   c7_created_response.2 (User.mk "Bob") (by decide)⟩

/-- Claim C10: the id path segment is parsed with signed-decimal semantics,
so "-1" (and "0") parse successfully; a GET for them is answered 404 (they
are never in the table, the allocator hands out only positive ids) rather
than 400, and a DELETE for "-1" is answered 204. -/
theorem c10_signed_id_parsing :
    atoi "-1" = some (-1)
    ∧ atoi "0" = some 0
    ∧ (∀ (s : ServerState), RegistryInv s →
        (handleGetUser "-1" s).1 = Response.mk 404 (notFoundMsg (-1))
        ∧ (handleGetUser "0" s).1 = Response.mk 404 (notFoundMsg 0))
    ∧ (∀ (s : ServerState), (handleDeleteUser "-1" s).1 = Response.mk 204 "") := by
  have hm : atoi "-1" = some (-1) := by decide
  have h0 : atoi "0" = some 0 := by decide
  refine ⟨hm, h0, fun s hs => ?_, fun s => ?_⟩
  · have hpos : ∀ p ∈ s.userCache, 0 < p.1 := fun p hp => (hs.2 p hp).1
    constructor
    · simp [handleGetUser, hm, mapLookup_none_of_keys_pos s.userCache (-1) hpos (by omega)]
    · simp [handleGetUser, h0, mapLookup_none_of_keys_pos s.userCache 0 hpos (by omega)]
  · simp [handleDeleteUser, hm]

/-- Witness for C10 at the initial state. -/
theorem c10_witness :
    ((handleGetUser "-1" initialState).1 = Response.mk 404 (notFoundMsg (-1))
      ∧ (handleGetUser "0" initialState).1 = Response.mk 404 (notFoundMsg 0))
    ∧ (handleDeleteUser "-1" initialState).1 = Response.mk 204 "" :=
  ⟨c10_signed_id_parsing.2.2.1 initialState ⟨by decide, by decide⟩,
   c10_signed_id_parsing.2.2.2 initialState⟩

/-- Claim C3: delete is idempotent and never errors: for any parseable
identifier (present or absent) the response is 204 with empty body, a
second delete gives the same response and does not change the state again,
deleting an absent key leaves the state untouched, and a get after the
first delete reports 404 not-found. -/
theorem c3_delete_idempotent :
    ∀ (s : ServerState) (idStr : String) (k : Int), atoi idStr = some k →
      (handleDeleteUser idStr s).1 = Response.mk 204 ""
      ∧ (handleDeleteUser idStr (handleDeleteUser idStr s).2).1 = Response.mk 204 ""
      ∧ (handleDeleteUser idStr (handleDeleteUser idStr s).2).2 = (handleDeleteUser idStr s).2
      ∧ (mapLookup s.userCache k = none → (handleDeleteUser idStr s).2 = s)
      ∧ (handleGetUser idStr (handleDeleteUser idStr s).2).1 = Response.mk 404 (notFoundMsg k) := by
  intro s idStr k hA
  obtain ⟨cache, nid⟩ := s
  have hd : handleDeleteUser idStr (ServerState.mk cache nid)
      = (Response.mk 204 "", ServerState.mk (mapDelete cache k) nid) := by
    simp [handleDeleteUser, hA]
  refine ⟨by simp [hd], ?_, ?_, ?_, ?_⟩
  · simp [hd, handleDeleteUser, hA]
  · simp [hd, handleDeleteUser, hA, mapDelete_mapDelete]
  · intro hnone
    simp [hd, mapDelete_of_lookup_none cache k hnone]
  · simp [hd, handleGetUser, hA, mapLookup_mapDelete]

/-- Witness for C3 at the initial state and identifier 5. -/
theorem c3_witness :
    (handleDeleteUser "5" initialState).1 = Response.mk 204 ""
    ∧ (handleDeleteUser "5" (handleDeleteUser "5" initialState).2).1 = Response.mk 204 ""
    ∧ (handleDeleteUser "5" (handleDeleteUser "5" initialState).2).2
        = (handleDeleteUser "5" initialState).2
    ∧ (mapLookup initialState.userCache 5 = none →
        (handleDeleteUser "5" initialState).2 = initialState)
    ∧ (handleGetUser "5" (handleDeleteUser "5" initialState).2).1
        = Response.mk 404 (notFoundMsg 5) :=
  c3_delete_idempotent initialState "5" 5 (by decide)

/-- Claim C4: delete leaves nextID unchanged and leaves every table entry
other than the deleted key unchanged; and any identifier below the current
nextID (in particular every identifier ever assigned, hence every deleted
one) is never assigned again by a future create. -/
theorem c4_delete_frame_no_resurrection :
    (∀ (s : ServerState) (idStr : String) (k : Int), atoi idStr = some k →
      (handleDeleteUser idStr s).2.nextID = s.nextID
      ∧ ∀ k', k' ≠ k →
          mapLookup (handleDeleteUser idStr s).2.userCache k' = mapLookup s.userCache k')
    ∧ (∀ (s : ServerState) (k : Int), k < s.nextID →
        ∀ (reqs : List Request) (i : Nat) (hi : i < reqs.length) (a : Int),
          assignedId (stateAt s reqs i) reqs[i] = some a → a ≠ k) := by
  constructor
  · intro s idStr k hA
    have hd : handleDeleteUser idStr s
        = (Response.mk 204 "", ServerState.mk (mapDelete s.userCache k) s.nextID) := by
      simp [handleDeleteUser, hA]
    refine ⟨by simp [hd], fun k' hk' => ?_⟩
    simp [hd, mapLookup_mapDelete, hk']
  · intro s k hk reqs i hi a ha
    obtain ⟨ha1, -, -⟩ := assignedId_some _ _ _ ha
    have hm : s.nextID ≤ (stateAt s reqs i).nextID := by
      have h := stateAt_nextID_mono s reqs 0 i (Nat.zero_le i)
      simpa [stateAt, runState] using h
    omega

/-- Witness for C4: frame of a delete at the initial state, and the first
create after the start never assigns an identifier below 1. -/
theorem c4_witness :
    ((handleDeleteUser "5" initialState).2.nextID = initialState.nextID
      ∧ mapLookup (handleDeleteUser "5" initialState).2.userCache 7
          = mapLookup initialState.userCache 7)
    ∧ (1 : Int) ≠ 0 :=
  ⟨⟨(c4_delete_frame_no_resurrection.1 initialState "5" 5 (by decide)).1,
    (c4_delete_frame_no_resurrection.1 initialState "5" 5 (by decide)).2 7 (by decide)⟩,
   c4_delete_frame_no_resurrection.2 initialState 0 (by decide)
     [Request.create (some (User.mk "Ada"))] 0 (by decide) 1 (by decide)⟩

/-- Claim C8: the registry invariant (every table key is positive and below
nextID, nextID at least 1) holds initially and is preserved by every step;
moreover every identifier handed out by a create is positive and stays
strictly below nextID from that step on. -/
theorem c8_registry_invariant :
    RegistryInv initialState
    ∧ (∀ (s : ServerState) (r : Request), RegistryInv s → RegistryInv (step s r).2)
    ∧ (∀ (s : ServerState) (r : Request) (a : Int) (l : List Request),
        RegistryInv s → assignedId s r = some a →
        0 < a ∧ a < (step s r).2.nextID ∧ a < (runState (step s r).2 l).nextID) := by
  refine ⟨⟨le_refl 1, by simp [initialState]⟩, ?_, ?_⟩
  · intro s r hs
    obtain ⟨h1, h2⟩ := hs
    cases r with
    | create body =>
      cases body with
      | none => exact ⟨h1, h2⟩
      | some u =>
        by_cases hn : u.name = ""
        · simpa [step, handleCreateUser, hn] using ⟨h1, h2⟩
        · refine ⟨?_, ?_⟩
          · simp [step, handleCreateUser, hn]
            omega
          · intro p hp
            simp [step, handleCreateUser, hn] at hp ⊢
            rcases mem_mapInsert s.userCache s.nextID u p hp with h | h
            · simp [h]
              omega
            · have := h2 p h
              constructor
              · exact this.1
              · have h3 : p.1 < s.nextID := this.2
                omega
    | get idStr =>
      rw [show (step s (Request.get idStr)).2 = s from handleGetUser_state idStr s]
      exact ⟨h1, h2⟩
    | delete idStr =>
      cases hA : atoi idStr with
      | none => simpa [step, handleDeleteUser, hA] using ⟨h1, h2⟩
      | some id =>
        refine ⟨?_, ?_⟩
        · simpa [step, handleDeleteUser, hA] using h1
        · intro p hp
          simp only [step, handleDeleteUser, hA] at hp ⊢
          exact h2 p (mem_mapDelete s.userCache id p hp)
  · intro s r a l hs ha
    obtain ⟨ha1, -, ha3⟩ := assignedId_some _ _ _ ha
    have h4 : (step s r).2.nextID ≤ (runState (step s r).2 l).nextID :=
      runState_nextID_le _ _
    have h1 : 1 ≤ s.nextID := hs.1
    refine ⟨by omega, by omega, by omega⟩

/-- Witness for C8: the invariant after one create from the start, and the
bounds for the identifier it assigns. -/
theorem c8_witness :
    RegistryInv (step initialState (Request.create (some (User.mk "Ada")))).2
    ∧ (0 < (1 : Int)
        ∧ (1 : Int) < (step initialState (Request.create (some (User.mk "Ada")))).2.nextID
        ∧ (1 : Int) < (runState (step initialState (Request.create (some (User.mk "Ada")))).2 []).nextID) :=
  ⟨c8_registry_invariant.2.1 initialState (Request.create (some (User.mk "Ada")))
      c8_registry_invariant.1,
   c8_registry_invariant.2.2 initialState (Request.create (some (User.mk "Ada"))) 1 []
      c8_registry_invariant.1 (by decide)⟩

/-- Run of consecutive successful creates: the responses are 201 with the
creation messages for nextID, nextID + 1, and so on. -/
theorem responses_seq_creates (us : List User) (s : ServerState)
    (h : ∀ u ∈ us, u.name ≠ "") :
    responses s (us.map (fun u => Request.create (some u)))
      = seqCreateResponses us.length s.nextID := by
  induction us generalizing s with
  | nil => simp [responses, seqCreateResponses]
  | cons u rest ih =>
    have hu : u.name ≠ "" := h u (by simp)
    have hstep : step s (Request.create (some u))
        = (Response.mk 201 (createMsg s.nextID),
            ServerState.mk (mapInsert s.userCache s.nextID u) (s.nextID + 1)) := by
      simp [step, handleCreateUser, hu]
    have ih2 := ih (ServerState.mk (mapInsert s.userCache s.nextID u) (s.nextID + 1))
      (fun v hv => h v (by simp [hv]))
    simp [responses, seqCreateResponses, hstep, ih2]

/-- Claim C1: identifier allocation is sequential: nextID starts at 1; a
successful create returns the pre-increment nextID in its 201 response and
advances nextID by exactly one; a run of k successful creates from the
start returns the identifiers 1, ..., k in order; and across any request
trace, two successful creates in order get strictly increasing (hence
never equal) identifiers. -/
theorem c1_sequential_identifier_allocation :
    initialState.nextID = 1
    ∧ (∀ (s : ServerState) (r : Request) (a : Int), assignedId s r = some a →
        a = s.nextID ∧ (step s r).1 = Response.mk 201 (createMsg a)
          ∧ (step s r).2.nextID = a + 1)
    ∧ (∀ (us : List User), (∀ u ∈ us, u.name ≠ "") →
        responses initialState (us.map (fun u => Request.create (some u)))
          = seqCreateResponses us.length 1)
    ∧ (∀ (reqs : List Request) (i j : Nat) (hi : i < reqs.length)
        (hj : j < reqs.length) (a b : Int), i < j →
        assignedId (stateAt initialState reqs i) reqs[i] = some a →
        assignedId (stateAt initialState reqs j) reqs[j] = some b →
        a < b) := by
  refine ⟨rfl, assignedId_some, ?_, ?_⟩
  · intro us h
    simpa [initialState] using responses_seq_creates us initialState h
  · intro reqs i j hi hj a b hij ha hb
    obtain ⟨-, -, ha3⟩ := assignedId_some _ _ _ ha
    obtain ⟨hb1, -, -⟩ := assignedId_some _ _ _ hb
    have h1 : (stateAt initialState reqs (i + 1)).nextID = a + 1 := by
      rw [stateAt_succ initialState reqs i hi]
      exact ha3
    have h2 : (stateAt initialState reqs (i + 1)).nextID
        ≤ (stateAt initialState reqs j).nextID :=
      stateAt_nextID_mono initialState reqs (i + 1) j hij
    omega

/-- Witness for C1: two successful creates from the start return the
identifiers 1 then 2, and their assigned identifiers are ordered. -/
theorem c1_witness :
    ((1 : Int) = initialState.nextID
      ∧ (step initialState (Request.create (some (User.mk "Ada")))).1
          = Response.mk 201 (createMsg 1)
      ∧ (step initialState (Request.create (some (User.mk "Ada")))).2.nextID = 1 + 1)
    ∧ responses initialState
        ([User.mk "Ada", User.mk "Bob"].map (fun u => Request.create (some u)))
        = seqCreateResponses [User.mk "Ada", User.mk "Bob"].length 1
    ∧ (1 : Int) < 2 :=
  ⟨c1_sequential_identifier_allocation.2.1 initialState
      (Request.create (some (User.mk "Ada"))) 1 (by decide),
   c1_sequential_identifier_allocation.2.2.1 [User.mk "Ada", User.mk "Bob"] (by decide),
   c1_sequential_identifier_allocation.2.2.2
      [Request.create (some (User.mk "Ada")), Request.create (some (User.mk "Bob"))]
      0 1 (by decide) (by decide) 1 2 (by decide) (by decide) (by decide)⟩

/-- Persistence of a stored record: a record at key k below nextID survives
any run that never deletes k, and k stays below nextID. -/
theorem lookup_persists (k : Int) (u : User) (mid : List Request) :
    ∀ (t : ServerState), mapLookup t.userCache k = some u → k < t.nextID →
      (∀ r ∈ mid, ¬ deletesId r k) →
      mapLookup (runState t mid).userCache k = some u
        ∧ k < (runState t mid).nextID := by
  induction mid with
  | nil => exact fun t h1 h2 _ => ⟨h1, h2⟩
  | cons r rs ih =>
    intro t h1 h2 hdel
    have hr : ¬ deletesId r k := hdel r (by simp)
    have hstep : mapLookup (step t r).2.userCache k = some u
        ∧ k < (step t r).2.nextID := by
      cases r with
      | create body =>
        cases body with
        | none => simpa [step, handleCreateUser] using ⟨h1, h2⟩
        | some v =>
          by_cases hv : v.name = ""
          · simpa [step, handleCreateUser, hv] using ⟨h1, h2⟩
          · constructor
            · have hne : ¬ t.nextID = k := by omega
              simp [step, handleCreateUser, hv, mapLookup_mapInsert, hne, h1]
            · simp [step, handleCreateUser, hv]
              omega
      | get idStr =>
        rw [show (step t (Request.get idStr)).2 = t from handleGetUser_state idStr t]
        exact ⟨h1, h2⟩
      | delete idStr =>
        cases hA : atoi idStr with
        | none => simpa [step, handleDeleteUser, hA] using ⟨h1, h2⟩
        | some id =>
          have hne : ¬ k = id := by
            intro hc
            exact hr (show deletesId (Request.delete idStr) k by
              simp [deletesId, hA, hc])
          constructor
          · simp [step, handleDeleteUser, hA, mapLookup_mapDelete, hne, h1]
          · simpa [step, handleDeleteUser, hA] using h2
    exact ih (step t r).2 hstep.1 hstep.2 (fun q hq => hdel q (by simp [hq]))

/-- Claim C2: read-after-write: after a create of a record with non-empty
name returns identifier k (= the nextID at that create), any later get of
k with no intervening delete of k finds exactly that record: the lookup
yields it (found = true) and the wire answer is 200 with its marshalled
form. -/
theorem c2_read_after_write :
    ∀ (s : ServerState) (u : User), u.name ≠ "" →
      ∀ (mid : List Request), (∀ r ∈ mid, ¬ deletesId r s.nextID) →
        ∀ (idStr : String), atoi idStr = some s.nextID →
          mapLookup (runState (handleCreateUser (some u) s).2 mid).userCache s.nextID
              = some u
          ∧ (handleGetUser idStr (runState (handleCreateUser (some u) s).2 mid)).1
              = Response.mk 200 (marshalUser u) := by
  intro s u hu mid hmid idStr hA
  have hc : (handleCreateUser (some u) s).2
      = ServerState.mk (mapInsert s.userCache s.nextID u) (s.nextID + 1) := by
    simp [handleCreateUser, hu]
  have h1 : mapLookup (handleCreateUser (some u) s).2.userCache s.nextID = some u := by
    rw [hc]
    simp [mapLookup_mapInsert]
  have h2 : s.nextID < (handleCreateUser (some u) s).2.nextID := by
    rw [hc]
    simp
  obtain ⟨hl, -⟩ := lookup_persists s.nextID u mid (handleCreateUser (some u) s).2 h1 h2 hmid
  exact ⟨hl, by simp [handleGetUser, hA, hl]⟩

/-- Witness for C2: create Ada at the start, then get identifier 1 with an
unrelated get and an unrelated delete in between. -/
theorem c2_witness :
    mapLookup (runState (handleCreateUser (some (User.mk "Ada")) initialState).2
        [Request.get "1", Request.delete "2"]).userCache initialState.nextID
      = some (User.mk "Ada")
    ∧ (handleGetUser "1" (runState (handleCreateUser (some (User.mk "Ada")) initialState).2
        [Request.get "1", Request.delete "2"])).1
      = Response.mk 200 (marshalUser (User.mk "Ada")) :=
  c2_read_after_write initialState (User.mk "Ada") (by decide)
    [Request.get "1", Request.delete "2"]
    (by
      intro r hr
      simp at hr
      rcases hr with h | h <;> simp [h, deletesId]
      decide)
    "1" (by decide)
